import Mathlib

/-!
Verification of the task-manager record-management service: a shallow
embedding of the cache-consistency and query-orchestration layer
(`internal/service`, `internal/cache`, `internal/models`,
`internal/repository`) together with theorems about its behaviour.

Collaborator calls (PostgreSQL record store, Redis cache) are modelled as
oracle responses passed to each operation, and every call the operation
makes is recorded, in order, in an effect trace.  Go `int` is modelled as
`Int` (Go integer division truncates toward zero, which is `Int.tdiv`);
Go `string` as `String`; Go `nil`-able pointers as `Option`.
-/

namespace TaskManager

/-- Task statuses are plain strings in the Go code (`type TaskStatus string`). -/
abbrev TaskStatus := String

/-- `models.TaskStatusPending` -/
def TaskStatusPending : TaskStatus := "pending"

/-- `models.TaskStatusInProgress` -/
def TaskStatusInProgress : TaskStatus := "in_progress"

/-- `models.TaskStatusCompleted` -/
def TaskStatusCompleted : TaskStatus := "completed"

/-- `models.TaskStatusCancelled` -/
def TaskStatusCancelled : TaskStatus := "cancelled"

/-- `models.Task`. Timestamps are opaque instants, modelled as `Nat`. -/
structure Task where
  id : String
  title : String
  description : String
  status : TaskStatus
  assignee : String
  createdAt : Nat
  updatedAt : Nat
deriving DecidableEq

/-- `models.CreateTaskRequest` -/
structure CreateTaskRequest where
  title : String
  description : String
  status : TaskStatus
  assignee : String
deriving DecidableEq

/-- `models.UpdateTaskRequest`: every field is a nullable pointer in Go. -/
structure UpdateTaskRequest where
  title : Option String
  description : Option String
  status : Option TaskStatus
  assignee : Option String
deriving DecidableEq

/-- `models.TaskFilter`: `Status`/`Assignee` are nullable pointers, `Page`
and `PageSize` are Go `int`s. -/
structure TaskFilter where
  status : Option TaskStatus
  assignee : Option String
  page : Int
  pageSize : Int
deriving DecidableEq

/-- `models.TaskListResponse` -/
structure TaskListResponse where
  tasks : List Task
  total : Int
  page : Int
  pageSize : Int
  totalPages : Int
deriving DecidableEq

/-- `models.IsValidStatus`: the closed status enumeration. -/
def IsValidStatus (status : TaskStatus) : Bool :=
  status == TaskStatusPending || status == TaskStatusInProgress ||
    status == TaskStatusCompleted || status == TaskStatusCancelled

/-- `models.NewTask`: the fresh UUID and the current instant are inputs of
the model (they are nondeterministic in Go). An empty status defaults to
`pending`. -/
def NewTask (title description assignee : String) (status : TaskStatus)
    (newId : String) (now : Nat) : Task :=
  let status := if status = "" then TaskStatusPending else status
  { id := newId, title := title, description := description, status := status,
    assignee := assignee, createdAt := now, updatedAt := now }

/-- `cache.taskListKey`, the namespace of cached collections. -/
def taskListKey : String := "tasks:list"

/-- `cache.GenerateCacheKey`: canonical serialization of a filter (or of the
nil filter) into a collection cache key. `toString` on `Int` agrees with Go
`fmt.Sprintf` with `%d`. -/
def GenerateCacheKey (filter : Option TaskFilter) : String :=
  match filter with
  | none => taskListKey ++ ":all"
  | some f =>
    let key := taskListKey
    let key := match f.status with
      | some s => key ++ ":status:" ++ s
      | none => key
    let key := match f.assignee with
      | some a => key ++ ":assignee:" ++ a
      | none => key
    key ++ ":page:" ++ toString f.page ++ ":size:" ++ toString f.pageSize

/-- Classification of a record-store error value: `repository.ErrTaskNotFound`
versus any other (infrastructure) failure. Callers test it with
`errors.Is(err, repository.ErrTaskNotFound)`, which survives `fmt.Errorf`
wrapping with `%w`. -/
inductive RepoErr
  | notFound
  | storage
deriving DecidableEq

/-- Error value returned by a service operation. `repoPass` is a record-store
error returned verbatim (`return nil, err`); `repoWrapped` is a record-store
error wrapped by `fmt.Errorf("<msg>: %w", err)`; `invalidInput` is a fresh
`errors.New(msg)` validation error. -/
inductive SvcErr
  | invalidInput (msg : String)
  | repoPass (e : RepoErr)
  | repoWrapped (msg : String) (e : RepoErr)
deriving DecidableEq

/-- Whether `errors.Is(err, repository.ErrTaskNotFound)` holds on the value a
service operation returned (wrapping with `%w` preserves it). -/
def SvcErr.isNotFound : SvcErr → Bool
  | .repoPass .notFound => true
  | .repoWrapped _ .notFound => true
  | _ => false

/-- One collaborator call made by a service operation, with its arguments. -/
inductive Effect
  | repoCreate (t : Task)
  | repoGetByID (id : String)
  | repoGetAll (filter : TaskFilter)
  | repoUpdate (t : Task)
  | repoDelete (id : String)
  | repoCount
  | cacheGetTask (id : String)
  | cacheSetTask (t : Task)
  | cacheDeleteTask (id : String)
  | cacheGetList (key : String)
  | cacheSetList (key : String) (tasks : List Task)
  | cacheInvalidateList
deriving DecidableEq

/-- Record-store mutations (create / update / delete). -/
def Effect.isRepoWrite : Effect → Bool
  | .repoCreate _ => true
  | .repoUpdate _ => true
  | .repoDelete _ => true
  | _ => false

/-- Cache mutations: single-record put and eviction, collection put, and
whole-namespace collection invalidation. -/
def Effect.isCacheMutation : Effect → Bool
  | .cacheSetTask _ => true
  | .cacheDeleteTask _ => true
  | .cacheSetList _ _ => true
  | .cacheInvalidateList => true
  | _ => false

/-- The record store's paginated query. -/
def Effect.isRepoGetAll : Effect → Bool
  | .repoGetAll _ => true
  | _ => false

/-- Cache operations on a single-record entry (put or eviction). -/
def Effect.isSingleRecordCacheOp : Effect → Bool
  | .cacheSetTask _ => true
  | .cacheDeleteTask _ => true
  | _ => false

/-- Outcome of a cache `Get`, which in Go returns `(value, err)`:
`ok (some v)` is a hit (`err == nil && value != nil`), `ok none` is a miss
(`redis.Nil` mapped to `(nil, nil)`), and `err` is a cache failure
(non-nil error). -/
inductive CacheLookup (α : Type)
  | ok (v : Option α)
  | err
deriving DecidableEq

/-! ### The repository layer (`internal/repository`, PostgreSQL) -/

/-- Outcome of `QueryRowContext(...).Scan`: a row, `sql.ErrNoRows`, or
another database error. -/
inductive DbRowResult
  | row (t : Task)
  | noRows
  | dbErr
deriving DecidableEq

/-- Outcome of `ExecContext` followed by `RowsAffected`: a row count, an
execution error, or a `RowsAffected` error. -/
inductive DbExecResult
  | ok (rowsAffected : Nat)
  | execErr
  | rowsAffectedErr
deriving DecidableEq

namespace PostgresTaskRepository

/-- `PostgresTaskRepository.GetByID`: `sql.ErrNoRows` becomes
`ErrTaskNotFound`; any other error is wrapped as a storage failure. -/
def GetByID (res : DbRowResult) : Except RepoErr Task :=
  match res with
  | .row t => .ok t
  | .noRows => .error .notFound
  | .dbErr => .error .storage

/-- `PostgresTaskRepository.Update`: zero affected rows becomes
`ErrTaskNotFound`; execution or `RowsAffected` errors are storage failures. -/
def Update (res : DbExecResult) : Except RepoErr Unit :=
  match res with
  | .execErr => .error .storage
  | .rowsAffectedErr => .error .storage
  | .ok 0 => .error .notFound
  | .ok (_ + 1) => .ok ()

/-- `PostgresTaskRepository.Delete`: zero affected rows becomes
`ErrTaskNotFound`; execution or `RowsAffected` errors are storage failures. -/
def Delete (res : DbExecResult) : Except RepoErr Unit :=
  match res with
  | .execErr => .error .storage
  | .rowsAffectedErr => .error .storage
  | .ok 0 => .error .notFound
  | .ok (_ + 1) => .ok ()

end PostgresTaskRepository

/-! ### The orchestration service (`internal/service.TaskService`)

Each operation takes the responses its collaborator calls would return
(`hasCache` is whether the optional cache handle is non-nil) and returns the
Go function's result paired with the ordered trace of collaborator calls it
performed. -/

/-- `service.TaskService.CreateTask`. -/
def CreateTask (req : CreateTaskRequest) (newId : String) (now : Nat)
    (hasCache : Bool) (repoCreateRes : Except RepoErr Unit) :
    Except SvcErr Task × List Effect :=
  if req.title = "" then
    (.error (.invalidInput ("title is required")), [])
  else if req.status ≠ "" && !IsValidStatus req.status then
    (.error (.invalidInput ("invalid status")), [])
  else
    let task := NewTask req.title req.description req.assignee req.status newId now
    match repoCreateRes with
    | .error e => (.error (.repoWrapped ("failed to create task") e), [.repoCreate task])
    | .ok _ =>
      if hasCache then
        (.ok task, [.repoCreate task, .cacheInvalidateList])
      else
        (.ok task, [.repoCreate task])

/-- `service.TaskService.GetTask`: cache-aside single-record read. The
result of the best-effort `SetTask` is discarded (`_ =` in Go). -/
def GetTask (id : String) (hasCache : Bool)
    (cacheGetRes : CacheLookup Task)
    (repoGetRes : Except RepoErr Task)
    (cacheSetRes : Except Unit Unit) :
    Except SvcErr Task × List Effect :=
  let _ := cacheSetRes
  let hit : Option Task :=
    if hasCache then
      match cacheGetRes with
      | .ok (some t) => some t
      | _ => none
    else none
  let pre : List Effect := if hasCache then [Effect.cacheGetTask id] else []
  match hit with
  | some t => (.ok t, pre)
  | none =>
    match repoGetRes with
    | .error e => (.error (.repoPass e), pre ++ [.repoGetByID id])
    | .ok task =>
      if hasCache then
        (.ok task, pre ++ [.repoGetByID id, .cacheSetTask task])
      else
        (.ok task, pre ++ [.repoGetByID id])

/-- The zero value `&models.TaskFilter{}` substituted for a nil filter. -/
def defaultFilter : TaskFilter :=
  { status := none, assignee := none, page := 0, pageSize := 0 }

/-- The pagination defaulting/clamping at the head of
`service.TaskService.ListTasks`. -/
def normalizeFilter (f : TaskFilter) : TaskFilter :=
  let f := if f.page < 1 then { f with page := 1 } else f
  let f := if f.pageSize < 1 then { f with pageSize := 10 } else f
  if f.pageSize > 100 then { f with pageSize := 100 } else f

/-- The cache-miss tail of `ListTasks`: query the record store, best-effort
cache the returned page, and compute `totalPages` with the minimum-1 floor. -/
def listMissPath (filter : TaskFilter) (hasCache : Bool) (cacheKey : String)
    (repoAllRes : Except RepoErr (List Task × Int)) (pre : List Effect) :
    Except SvcErr TaskListResponse × List Effect :=
  match repoAllRes with
  | .error e => (.error (.repoWrapped ("failed to list tasks") e), pre ++ [.repoGetAll filter])
  | .ok (tasks, total) =>
    let eff := pre ++ [Effect.repoGetAll filter] ++
      (if hasCache then [Effect.cacheSetList cacheKey tasks] else [])
    let totalPages := (total + filter.pageSize - 1).tdiv filter.pageSize
    let totalPages := if totalPages = 0 then 1 else totalPages
    (.ok { tasks := tasks, total := total, page := filter.page,
           pageSize := filter.pageSize, totalPages := totalPages }, eff)

/-- `service.TaskService.ListTasks`: normalize, validate the status filter,
then cache-aside on the key derived from the normalized filter. On a cache
hit `total` is the cached slice's length and `totalPages` is computed from
it without the minimum-1 floor. The result of the best-effort `SetTaskList`
is discarded (`_ =` in Go). -/
def ListTasks (filterReq : Option TaskFilter) (hasCache : Bool)
    (cacheListRes : CacheLookup (List Task))
    (repoAllRes : Except RepoErr (List Task × Int))
    (cacheSetRes : Except Unit Unit) :
    Except SvcErr TaskListResponse × List Effect :=
  let _ := cacheSetRes
  let filter := normalizeFilter (filterReq.getD defaultFilter)
  let statusInvalid := match filter.status with
    | some s => !IsValidStatus s
    | none => false
  if statusInvalid then
    (.error (.invalidInput ("invalid status filter")), [])
  else
    let cacheKey := GenerateCacheKey (some filter)
    if hasCache then
      match cacheListRes with
      | .ok (some cachedTasks) =>
        let total : Int := cachedTasks.length
        let totalPages := (total + filter.pageSize - 1).tdiv filter.pageSize
        (.ok { tasks := cachedTasks, total := total, page := filter.page,
               pageSize := filter.pageSize, totalPages := totalPages },
         [.cacheGetList cacheKey])
      | _ => listMissPath filter hasCache cacheKey repoAllRes [Effect.cacheGetList cacheKey]
    else
      listMissPath filter hasCache cacheKey repoAllRes []

/-- `service.TaskService.UpdateTask`: authoritative read, field-wise partial
update with status validation, persist, then evict the single-record entry
and the whole collection namespace. -/
def UpdateTask (id : String) (req : UpdateTaskRequest) (now : Nat)
    (hasCache : Bool)
    (repoGetRes : Except RepoErr Task)
    (repoUpdateRes : Except RepoErr Unit) :
    Except SvcErr Task × List Effect :=
  match repoGetRes with
  | .error e => (.error (.repoPass e), [.repoGetByID id])
  | .ok task0 =>
    let task1 := match req.title with
      | some t => { task0 with title := t }
      | none => task0
    let task2 := match req.description with
      | some d => { task1 with description := d }
      | none => task1
    let statusInvalid := match req.status with
      | some st => !IsValidStatus st
      | none => false
    if statusInvalid then
      (.error (.invalidInput ("invalid status")), [.repoGetByID id])
    else
      let task3 := match req.status with
        | some st => { task2 with status := st }
        | none => task2
      let task4 := match req.assignee with
        | some a => { task3 with assignee := a }
        | none => task3
      let task5 := { task4 with updatedAt := now }
      match repoUpdateRes with
      | .error e =>
        (.error (.repoWrapped ("failed to update task") e),
         [.repoGetByID id, .repoUpdate task5])
      | .ok _ =>
        if hasCache then
          (.ok task5,
           [.repoGetByID id, .repoUpdate task5, .cacheDeleteTask id, .cacheInvalidateList])
        else
          (.ok task5, [.repoGetByID id, .repoUpdate task5])

/-- `service.TaskService.DeleteTask`: persist the delete, then evict the
single-record entry and the whole collection namespace. `none` is success
(Go returns only an error). -/
def DeleteTask (id : String) (hasCache : Bool)
    (repoDeleteRes : Except RepoErr Unit) :
    Option SvcErr × List Effect :=
  match repoDeleteRes with
  | .error e => (some (.repoPass e), [.repoDelete id])
  | .ok _ =>
    if hasCache then
      (none, [.repoDelete id, .cacheDeleteTask id, .cacheInvalidateList])
    else
      (none, [.repoDelete id])

/-! ### Helper lemmas -/

theorem normalizeFilter_status (f : TaskFilter) :
    (normalizeFilter f).status = f.status := by
  simp only [normalizeFilter]
  split <;> split <;> split <;> rfl

theorem normalizeFilter_assignee (f : TaskFilter) :
    (normalizeFilter f).assignee = f.assignee := by
  simp only [normalizeFilter]
  split <;> split <;> split <;> rfl

theorem normalizeFilter_page_pos (f : TaskFilter) :
    1 ≤ (normalizeFilter f).page := by
  simp only [normalizeFilter]
  split <;> split <;> split <;> simp_all

theorem normalizeFilter_pageSize_pos (f : TaskFilter) :
    1 ≤ (normalizeFilter f).pageSize := by
  simp only [normalizeFilter]
  split <;> split <;> split <;> simp_all

theorem normalizeFilter_pageSize_le (f : TaskFilter) :
    (normalizeFilter f).pageSize ≤ 100 := by
  simp only [normalizeFilter]
  split <;> split <;> split <;> simp_all

theorem normalizeFilter_eq (f : TaskFilter) :
    normalizeFilter f =
      { f with
        page := if f.page < 1 then 1 else f.page,
        pageSize := if f.pageSize < 1 then 10
          else if f.pageSize > 100 then 100 else f.pageSize } := by
  obtain ⟨st, a, p, ps⟩ := f
  simp only [normalizeFilter]
  split <;> split <;> split <;> simp_all

theorem normalizeFilter_idem (f : TaskFilter) :
    normalizeFilter (normalizeFilter f) = normalizeFilter f := by
  rw [normalizeFilter_eq, normalizeFilter_eq]
  obtain ⟨st, a, p, ps⟩ := f
  simp only [TaskFilter.mk.injEq]
  exact ⟨trivial, trivial, by split_ifs <;> omega, by split_ifs <;> omega⟩

/-- Go's truncating integer division `(a + b - 1) / b` is the rational
ceiling of `a / b` whenever `0 ≤ a` and `0 < b`. -/
theorem tdiv_add_sub_one_eq_ceil (a b : Int) (ha : 0 ≤ a) (hb : 0 < b) :
    (a + b - 1).tdiv b = ⌈(a : ℚ) / (b : ℚ)⌉ := by
  have hab : 0 ≤ a + b - 1 := by omega
  have hbq : (0 : ℚ) < (b : ℚ) := by exact_mod_cast hb
  rw [Int.tdiv_eq_ediv hab hb.le]
  set q := (a + b - 1) / b with hq
  have hdiv : b * q + (a + b - 1) % b = a + b - 1 := Int.ediv_add_emod _ _
  have hmod1 : 0 ≤ (a + b - 1) % b := Int.emod_nonneg _ (by omega)
  have hmod2 : (a + b - 1) % b < b := Int.emod_lt_of_pos _ hb
  symm
  rw [Int.ceil_eq_iff]
  have e1 : (q - 1) * b = b * q - b := by ring
  have e2 : q * b = b * q := by ring
  refine ⟨?_, ?_⟩
  · rw [lt_div_iff₀ hbq]
    have h1 : (q - 1) * b < a := by linarith
    exact_mod_cast h1
  · rw [div_le_iff₀ hbq]
    have h2 : a ≤ q * b := by linarith
    exact_mod_cast h2

/-! ### Claims -/

/-- C9: `List` normalizes the filter before any other step: a page number
less than 1 becomes 1; a page size less than 1 becomes 10; a page size
greater than 100 becomes 100; values already in range are unchanged; and
running `ListTasks` on a filter is the same as running it on the normalized
filter. -/
theorem c9_list_normalizes_filter_first :
    (∀ f : TaskFilter, f.page < 1 → (normalizeFilter f).page = 1) ∧
    (∀ f : TaskFilter, 1 ≤ f.page → (normalizeFilter f).page = f.page) ∧
    (∀ f : TaskFilter, f.pageSize < 1 → (normalizeFilter f).pageSize = 10) ∧
    (∀ f : TaskFilter, 100 < f.pageSize → (normalizeFilter f).pageSize = 100) ∧
    (∀ f : TaskFilter, 1 ≤ f.pageSize → f.pageSize ≤ 100 →
      (normalizeFilter f).pageSize = f.pageSize) ∧
    (∀ (f : TaskFilter) (hasCache : Bool) (cl : CacheLookup (List Task))
      (ra : Except RepoErr (List Task × Int)) (cs : Except Unit Unit),
      ListTasks (some f) hasCache cl ra cs =
        ListTasks (some (normalizeFilter f)) hasCache cl ra cs) := by
  refine ⟨?_, ?_, ?_, ?_, ?_, ?_⟩
  · intro f h
    rw [normalizeFilter_eq]
    simp [if_pos h]
  · intro f h
    rw [normalizeFilter_eq]
    simp only
    omega
  · intro f h
    rw [normalizeFilter_eq]
    simp [if_pos h]
  · intro f h
    rw [normalizeFilter_eq]
    simp only
    omega
  · intro f h1 h2
    rw [normalizeFilter_eq]
    simp only
    omega
  · intro f hasCache cl ra cs
    simp only [ListTasks, Option.getD_some, normalizeFilter_idem]

/-- C9 witness: a requested page size of 150 is served as 100, and a page
number of 0 becomes 1. -/
theorem c9_list_normalizes_filter_first_witness :
    ((100 : Int) < 150 ∧
      (normalizeFilter { status := none, assignee := none, page := 1, pageSize := 150 }).pageSize
        = 100) ∧
    ((0 : Int) < 1 ∧
      (normalizeFilter { status := none, assignee := none, page := 0, pageSize := 10 }).page
        = 1) :=
  ⟨⟨by decide,
      c9_list_normalizes_filter_first.2.2.2.1
        { status := none, assignee := none, page := 1, pageSize := 150 } (by decide)⟩,
   ⟨by decide,
      c9_list_normalizes_filter_first.1
        { status := none, assignee := none, page := 0, pageSize := 10 } (by decide)⟩⟩

/-- C2: a `Create` with an empty title or an out-of-enumeration status, an
`Update` supplying an out-of-enumeration status, and a `List` whose status
filter is out of the enumeration each fail with an invalid-input error, and
in each such failing call no record-store write and no cache mutation is
performed (the traces contain at most the authoritative read). -/
theorem c2_invalid_input_no_side_effects :
    (∀ (req : CreateTaskRequest) (newId : String) (now : Nat) (hasCache : Bool)
        (rc : Except RepoErr Unit), req.title = "" →
      CreateTask req newId now hasCache rc =
        (.error (.invalidInput ("title is required")), [])) ∧
    (∀ (req : CreateTaskRequest) (newId : String) (now : Nat) (hasCache : Bool)
        (rc : Except RepoErr Unit),
      req.title ≠ "" → req.status ≠ "" → IsValidStatus req.status = false →
      CreateTask req newId now hasCache rc =
        (.error (.invalidInput ("invalid status")), [])) ∧
    (∀ (id : String) (req : UpdateTaskRequest) (now : Nat) (hasCache : Bool)
        (t0 : Task) (ru : Except RepoErr Unit) (st : TaskStatus),
      req.status = some st → IsValidStatus st = false →
      UpdateTask id req now hasCache (.ok t0) ru =
        (.error (.invalidInput ("invalid status")), [.repoGetByID id]) ∧
      ((UpdateTask id req now hasCache (.ok t0) ru).2.all
        fun e => !e.isRepoWrite && !e.isCacheMutation) = true) ∧
    (∀ (fr : Option TaskFilter) (hasCache : Bool) (cl : CacheLookup (List Task))
        (ra : Except RepoErr (List Task × Int)) (cs : Except Unit Unit) (st : TaskStatus),
      (fr.getD defaultFilter).status = some st → IsValidStatus st = false →
      ListTasks fr hasCache cl ra cs =
        (.error (.invalidInput ("invalid status filter")), [])) := by
  refine ⟨?_, ?_, ?_, ?_⟩
  · intro req newId now hasCache rc h
    simp [CreateTask, h]
  · intro req newId now hasCache rc h1 h2 h3
    simp [CreateTask, h1, h2, h3]
  · intro id req now hasCache t0 ru st hst hbad
    constructor
    · simp [UpdateTask, hst, hbad]
    · simp [UpdateTask, hst, hbad, Effect.isRepoWrite, Effect.isCacheMutation]
  · intro fr hasCache cl ra cs st hst hbad
    simp [ListTasks, normalizeFilter_status, hst, hbad]

/-- C2 witness: concrete invalid calls at each of the four entry points. -/
theorem c2_invalid_input_no_side_effects_witness :
    (CreateTask { title := "", description := "", status := "pending", assignee := "" }
        "id-1" 0 true (.ok ()) =
      (.error (.invalidInput ("title is required")), [])) ∧
    (CreateTask { title := "t", description := "", status := "bogus", assignee := "" }
        "id-1" 0 true (.ok ()) =
      (.error (.invalidInput ("invalid status")), [])) ∧
    (UpdateTask "id-2"
        { title := none, description := none, status := some "bogus", assignee := none }
        5 true (.ok { id := "id-2", title := "t", description := "", status := "pending",
                      assignee := "", createdAt := 0, updatedAt := 0 }) (.ok ()) =
      (.error (.invalidInput ("invalid status")), [.repoGetByID "id-2"])) ∧
    (ListTasks (some { status := some "bogus", assignee := none, page := 1, pageSize := 10 })
        true (.ok none) (.ok ([], 0)) (.ok ()) =
      (.error (.invalidInput ("invalid status filter")), [])) :=
  ⟨c2_invalid_input_no_side_effects.1 _ "id-1" 0 true (.ok ()) (by decide),
   c2_invalid_input_no_side_effects.2.1 _ "id-1" 0 true (.ok ()) (by decide) (by decide)
     (by decide),
   (c2_invalid_input_no_side_effects.2.2.1 "id-2" _ 5 true _ (.ok ()) "bogus" (by decide)
     (by decide)).1,
   c2_invalid_input_no_side_effects.2.2.2 _ true (.ok none) (.ok ([], 0)) (.ok ()) "bogus"
     (by decide) (by decide)⟩

/-- C3: mutation/cache frame. If the record-store call of `Create`, `Update`
or `Delete` fails, no cache operation is performed at all; on success,
`Create` invalidates all collection entries and touches no single-record
entry, while `Update` and `Delete` evict the single-record entry for the
target identifier and all collection entries. -/
theorem c3_mutation_cache_frame :
    (∀ (req : CreateTaskRequest) (newId : String) (now : Nat) (hasCache : Bool) (e : RepoErr),
      ((CreateTask req newId now hasCache (.error e)).2.all
        fun eff => !eff.isCacheMutation) = true) ∧
    (∀ (req : CreateTaskRequest) (newId : String) (now : Nat),
      req.title ≠ "" → (req.status = "" ∨ IsValidStatus req.status = true) →
      ((CreateTask req newId now true (.ok ())).2.filter
          (fun eff => eff.isCacheMutation)) = [.cacheInvalidateList] ∧
      ((CreateTask req newId now true (.ok ())).2.all
        fun eff => !eff.isSingleRecordCacheOp) = true) ∧
    (∀ (id : String) (req : UpdateTaskRequest) (now : Nat) (hasCache : Bool)
        (rg : Except RepoErr Task) (e : RepoErr),
      ((UpdateTask id req now hasCache rg (.error e)).2.all
        fun eff => !eff.isCacheMutation) = true) ∧
    (∀ (id : String) (req : UpdateTaskRequest) (now : Nat) (t0 : Task),
      (req.status = none ∨ ∃ st, req.status = some st ∧ IsValidStatus st = true) →
      ((UpdateTask id req now true (.ok t0) (.ok ())).2.filter
          (fun eff => eff.isCacheMutation)) = [.cacheDeleteTask id, .cacheInvalidateList]) ∧
    (∀ (id : String) (hasCache : Bool) (e : RepoErr),
      ((DeleteTask id hasCache (.error e)).2.all
        fun eff => !eff.isCacheMutation) = true) ∧
    (∀ id : String,
      DeleteTask id true (.ok ()) =
        (none, [.repoDelete id, .cacheDeleteTask id, .cacheInvalidateList])) := by
  refine ⟨?_, ?_, ?_, ?_, ?_, ?_⟩
  · intro req newId now hasCache e
    simp only [CreateTask]
    split
    · simp
    · split
      · simp
      · simp [Effect.isCacheMutation]
  · intro req newId now h1 h2
    rcases h2 with h2 | h2 <;>
      simp [CreateTask, h1, h2, Effect.isCacheMutation, Effect.isSingleRecordCacheOp]
  · intro id req now hasCache rg e
    cases rg with
    | error e0 => simp [UpdateTask, Effect.isCacheMutation]
    | ok t0 =>
      simp only [UpdateTask]
      split
      · simp [Effect.isCacheMutation]
      · simp [Effect.isCacheMutation]
  · intro id req now t0 h
    rcases h with h | ⟨st, hst, hv⟩
    · simp [UpdateTask, h, Effect.isCacheMutation]
    · simp [UpdateTask, hst, hv, Effect.isCacheMutation]
  · intro id hasCache e
    simp [DeleteTask, Effect.isCacheMutation]
  · intro id
    simp [DeleteTask]

/-- C3 witness: concrete failing and succeeding mutations. -/
theorem c3_mutation_cache_frame_witness :
    (((CreateTask { title := "t", description := "", status := "", assignee := "" }
        "id-3" 0 true (.ok ())).2.filter
          (fun eff => eff.isCacheMutation)) = [.cacheInvalidateList]) ∧
    (((UpdateTask "id-4" { title := none, description := none, status := none, assignee := none }
        7 true (.ok { id := "id-4", title := "t", description := "", status := "pending",
                      assignee := "", createdAt := 0, updatedAt := 0 }) (.ok ())).2.filter
          (fun eff => eff.isCacheMutation)) = [.cacheDeleteTask "id-4", .cacheInvalidateList]) :=
  ⟨(c3_mutation_cache_frame.2.1 _ "id-3" 0 (by decide) (Or.inl (by decide))).1,
   c3_mutation_cache_frame.2.2.2.1 "id-4" _ 7 _ (Or.inl rfl)⟩

/-- C8: every task handed to the record store's `create` or `update` has a
status from the closed enumeration. `Create` defaults an empty status to
`pending` and rejects other invalid values before persisting; `Update`,
starting from a fetched task whose status is valid, rejects an invalid
supplied status before persisting. -/
theorem c8_persisted_status_always_valid :
    (∀ (req : CreateTaskRequest) (newId : String) (now : Nat) (hasCache : Bool)
        (rc : Except RepoErr Unit) (t : Task),
      Effect.repoCreate t ∈ (CreateTask req newId now hasCache rc).2 →
      IsValidStatus t.status = true) ∧
    (∀ (id : String) (req : UpdateTaskRequest) (now : Nat) (hasCache : Bool)
        (t0 : Task) (ru : Except RepoErr Unit) (t : Task),
      IsValidStatus t0.status = true →
      Effect.repoUpdate t ∈ (UpdateTask id req now hasCache (.ok t0) ru).2 →
      IsValidStatus t.status = true) := by
  constructor
  · intro req newId now hasCache rc t hmem
    by_cases ht : req.title = ""
    · simp [CreateTask, ht] at hmem
    · by_cases h0 : req.status = ""
      · cases rc <;> cases hasCache <;> simp [CreateTask, ht, h0, NewTask] at hmem <;>
          subst hmem <;> rfl
      · by_cases h1 : IsValidStatus req.status = true
        · cases rc <;> cases hasCache <;> simp [CreateTask, ht, h0, h1, NewTask] at hmem <;>
            subst hmem <;> exact h1
        · have h1f : IsValidStatus req.status = false := by simp_all
          simp [CreateTask, ht, h0, h1f] at hmem
  · intro id req now hasCache t0 ru t h0 hmem
    obtain ⟨i0, ti0, d0, s0, a0, c0, u0⟩ := t0
    obtain ⟨rt, rd, rs, ra2⟩ := req
    cases rs with
    | none =>
      cases rt <;> cases rd <;> cases ra2 <;> cases ru <;> cases hasCache <;>
        simp [UpdateTask] at hmem <;> subst hmem <;> simpa using h0
    | some st =>
      by_cases hv : IsValidStatus st = true
      · cases rt <;> cases rd <;> cases ra2 <;> cases ru <;> cases hasCache <;>
          simp [UpdateTask, hv] at hmem <;> subst hmem <;> simpa using hv
      · have hv2 : IsValidStatus st = false := by simp_all
        cases rt <;> cases rd <;> cases ra2 <;> cases ru <;> cases hasCache <;>
          simp [UpdateTask, hv2] at hmem

/-- C8 witness: a create with an empty status persists status `pending`;
an update supplying `completed` over a `pending` task persists `completed`. -/
theorem c8_persisted_status_always_valid_witness :
    (Effect.repoCreate
        { id := "id-5", title := "t", description := "", status := "pending",
          assignee := "", createdAt := 0, updatedAt := 0 } ∈
      (CreateTask { title := "t", description := "", status := "", assignee := "" }
        "id-5" 0 true (.ok ())).2 ∧
      IsValidStatus "pending" = true) ∧
    (IsValidStatus "pending" = true ∧
      Effect.repoUpdate
        { id := "id-6", title := "t", description := "", status := "completed",
          assignee := "", createdAt := 0, updatedAt := 9 } ∈
      (UpdateTask "id-6"
        { title := none, description := none, status := some "completed", assignee := none }
        9 true (.ok { id := "id-6", title := "t", description := "", status := "pending",
                      assignee := "", createdAt := 0, updatedAt := 0 }) (.ok ())).2 ∧
      IsValidStatus "completed" = true) :=
  ⟨⟨by decide,
    c8_persisted_status_always_valid.1
      { title := "t", description := "", status := "", assignee := "" } "id-5" 0 true
      (.ok ())
      { id := "id-5", title := "t", description := "", status := "pending",
        assignee := "", createdAt := 0, updatedAt := 0 } (by decide)⟩,
   ⟨by decide, by decide,
    c8_persisted_status_always_valid.2 "id-6"
      { title := none, description := none, status := some "completed", assignee := none }
      9 true
      { id := "id-6", title := "t", description := "", status := "pending",
        assignee := "", createdAt := 0, updatedAt := 0 } (.ok ())
      { id := "id-6", title := "t", description := "", status := "completed",
        assignee := "", createdAt := 0, updatedAt := 9 } (by decide) (by decide)⟩⟩

/-- C4: for `GetByID` and `List`, a cache lookup error is treated exactly as
a miss (same result and same effect trace as `(nil, nil)`), the call can
still succeed against the record store, and the outcome of the best-effort
cache put is discarded, so no cache error is ever part of the returned
value. -/
theorem c4_cache_errors_never_surface :
    (∀ (id : String) (rg : Except RepoErr Task) (cs : Except Unit Unit),
      GetTask id true .err rg cs = GetTask id true (.ok none) rg cs) ∧
    (∀ (id : String) (hasCache : Bool) (cg : CacheLookup Task) (rg : Except RepoErr Task)
        (cs cs2 : Except Unit Unit),
      GetTask id hasCache cg rg cs = GetTask id hasCache cg rg cs2) ∧
    (∀ (id : String) (t : Task) (cs : Except Unit Unit),
      (GetTask id true .err (.ok t) cs).1 = .ok t) ∧
    (∀ (fr : Option TaskFilter) (ra : Except RepoErr (List Task × Int))
        (cs : Except Unit Unit),
      ListTasks fr true .err ra cs = ListTasks fr true (.ok none) ra cs) ∧
    (∀ (fr : Option TaskFilter) (hasCache : Bool) (cl : CacheLookup (List Task))
        (ra : Except RepoErr (List Task × Int)) (cs cs2 : Except Unit Unit),
      ListTasks fr hasCache cl ra cs = ListTasks fr hasCache cl ra cs2) ∧
    (∀ (fr : Option TaskFilter) (tasks : List Task) (total : Int) (cs : Except Unit Unit),
      ((fr.getD defaultFilter).status.all fun s => IsValidStatus s) = true →
      (ListTasks fr true .err (.ok (tasks, total)) cs).1.isOk = true) := by
  refine ⟨?_, ?_, ?_, ?_, ?_, ?_⟩
  · intro id rg cs
    rfl
  · intro id hasCache cg rg cs cs2
    rfl
  · intro id t cs
    rfl
  · intro fr ra cs
    rfl
  · intro fr hasCache cl ra cs cs2
    rfl
  · intro fr tasks total cs h
    cases hst : (fr.getD defaultFilter).status with
    | none =>
      simp [ListTasks, normalizeFilter_status, hst, listMissPath, Except.isOk, Except.toBool]
    | some s =>
      have hv : IsValidStatus s = true := by simpa [hst] using h
      simp [ListTasks, normalizeFilter_status, hst, hv, listMissPath, Except.isOk, Except.toBool]

/-- C4 witness: with a failing cache lookup, a concrete `List` call still
succeeds against the record store. -/
theorem c4_cache_errors_never_surface_witness :
    ((some { status := none, assignee := none, page := 1,
             pageSize := 10 } : Option TaskFilter).getD
        defaultFilter |>.status.all fun s => IsValidStatus s) = true ∧
    (ListTasks (some { status := none, assignee := none, page := 1, pageSize := 10 })
        true .err (.ok ([], 0)) (.ok ())).1.isOk = true :=
  ⟨by decide,
   c4_cache_errors_never_surface.2.2.2.2.2
     (some { status := none, assignee := none, page := 1, pageSize := 10 })
     [] 0 (.ok ()) (by decide)⟩

/-- C5: `GetByID`, `Update` and `Delete` on a nonexistent identifier fail
with the record store's distinguished not-found error, derived from
`sql.ErrNoRows` / a zero affected-row count, and the value the service
returns still satisfies `errors.Is(err, ErrTaskNotFound)` while storage
failures do not. -/
theorem c5_not_found_propagation :
    (PostgresTaskRepository.GetByID .noRows = .error .notFound ∧
     PostgresTaskRepository.GetByID .dbErr = .error .storage ∧
     PostgresTaskRepository.Update (.ok 0) = .error .notFound ∧
     PostgresTaskRepository.Delete (.ok 0) = .error .notFound ∧
     PostgresTaskRepository.Delete .execErr = .error .storage) ∧
    (∀ (id : String) (cs : Except Unit Unit),
      (GetTask id true (.ok none) (PostgresTaskRepository.GetByID .noRows) cs).1 =
        .error (.repoPass .notFound)) ∧
    (∀ (id : String) (req : UpdateTaskRequest) (now : Nat) (hasCache : Bool)
        (ru : Except RepoErr Unit),
      (UpdateTask id req now hasCache (PostgresTaskRepository.GetByID .noRows) ru).1 =
        .error (.repoPass .notFound)) ∧
    (∀ (id : String) (hasCache : Bool),
      (DeleteTask id hasCache (PostgresTaskRepository.Delete (.ok 0))).1 =
        some (.repoPass .notFound)) ∧
    ((SvcErr.repoPass RepoErr.notFound).isNotFound = true ∧
     (SvcErr.repoPass RepoErr.storage).isNotFound = false ∧
     (∀ m : String, (SvcErr.repoWrapped m RepoErr.notFound).isNotFound = true) ∧
     (∀ m : String, (SvcErr.repoWrapped m RepoErr.storage).isNotFound = false) ∧
     SvcErr.repoPass RepoErr.notFound ≠ SvcErr.repoPass RepoErr.storage) := by
  refine ⟨⟨rfl, rfl, rfl, rfl, rfl⟩, ?_, ?_, ?_, rfl, rfl, fun m => rfl, fun m => rfl, by decide⟩
  · intro id cs
    rfl
  · intro id req now hasCache ru
    rfl
  · intro id hasCache
    rfl

/-- C10: when the cache holds a present-but-empty collection under the
derived key, `List` returns `total = 0` and `totalPages = 0` (the minimum-1
floor applies only on the miss path), while the same query on a cache miss
with zero matching records returns `totalPages = 1`. -/
theorem c10_empty_cached_collection_totalpages_zero :
    ∀ (fr : Option TaskFilter) (ra : Except RepoErr (List Task × Int))
      (cs : Except Unit Unit),
      ((fr.getD defaultFilter).status.all fun s => IsValidStatus s) = true →
      ((ListTasks fr true (.ok (some [])) ra cs).1 =
        .ok { tasks := [], total := 0,
              page := (normalizeFilter (fr.getD defaultFilter)).page,
              pageSize := (normalizeFilter (fr.getD defaultFilter)).pageSize,
              totalPages := 0 }) ∧
      ((ListTasks fr true (.ok none) (.ok ([], 0)) cs).1 =
        .ok { tasks := [], total := 0,
              page := (normalizeFilter (fr.getD defaultFilter)).page,
              pageSize := (normalizeFilter (fr.getD defaultFilter)).pageSize,
              totalPages := 1 }) := by
  intro fr ra cs h
  have hps1 : 1 ≤ (normalizeFilter (fr.getD defaultFilter)).pageSize :=
    normalizeFilter_pageSize_pos _
  have hz : ((normalizeFilter (fr.getD defaultFilter)).pageSize - 1).tdiv
      (normalizeFilter (fr.getD defaultFilter)).pageSize = 0 :=
    Int.tdiv_eq_zero_of_lt (by omega) (by omega)
  cases hst : (fr.getD defaultFilter).status with
  | none =>
    constructor
    · simp [ListTasks, normalizeFilter_status, hst, hz]
    · simp [ListTasks, normalizeFilter_status, hst, listMissPath, hz]
  | some s =>
    have hv : IsValidStatus s = true := by simpa [hst] using h
    constructor
    · simp [ListTasks, normalizeFilter_status, hst, hv, hz]
    · simp [ListTasks, normalizeFilter_status, hst, hv, listMissPath, hz]

/-- C10 witness: the same concrete query yields `totalPages = 0` on a hit of
a cached empty page and `totalPages = 1` on a miss with zero records. -/
theorem c10_empty_cached_collection_totalpages_zero_witness :
    ((some { status := none, assignee := none, page := 1,
             pageSize := 10 } : Option TaskFilter).getD
        defaultFilter |>.status.all fun s => IsValidStatus s) = true ∧
    ((ListTasks (some { status := none, assignee := none, page := 1, pageSize := 10 })
        true (.ok (some [])) (.ok ([], 0)) (.ok ())).1 =
      .ok { tasks := [], total := 0, page := 1, pageSize := 10, totalPages := 0 }) ∧
    ((ListTasks (some { status := none, assignee := none, page := 1, pageSize := 10 })
        true (.ok none) (.ok ([], 0)) (.ok ())).1 =
      .ok { tasks := [], total := 0, page := 1, pageSize := 10, totalPages := 1 }) :=
  ⟨by decide,
   (c10_empty_cached_collection_totalpages_zero
     (some { status := none, assignee := none, page := 1, pageSize := 10 })
     (.ok ([], 0)) (.ok ()) (by decide)).1,
   (c10_empty_cached_collection_totalpages_zero
     (some { status := none, assignee := none, page := 1, pageSize := 10 })
     (.ok ([], 0)) (.ok ()) (by decide)).2⟩

theorem listMissPath_ok (filter : TaskFilter) (hasCache : Bool) (key : String)
    (ts : List Task) (total : Int) (pre : List Effect)
    (htot : 0 ≤ total) (hps : 1 ≤ filter.pageSize) :
    (listMissPath filter hasCache key (.ok (ts, total)) pre).1 =
      .ok { tasks := ts, total := total, page := filter.page,
            pageSize := filter.pageSize,
            totalPages := max 1 ⌈(total : ℚ) / (filter.pageSize : ℚ)⌉ } := by
  have hceil := tdiv_add_sub_one_eq_ceil total filter.pageSize htot (by omega)
  have hx : (0 : ℚ) ≤ (total : ℚ) / (filter.pageSize : ℚ) :=
    div_nonneg (by exact_mod_cast htot)
      (by exact_mod_cast (show (0 : Int) ≤ filter.pageSize by omega))
  have h0 := Int.ceil_nonneg hx
  have hmax : (if (total + filter.pageSize - 1).tdiv filter.pageSize = 0 then (1 : Int)
      else (total + filter.pageSize - 1).tdiv filter.pageSize) =
      max 1 ⌈(total : ℚ) / (filter.pageSize : ℚ)⌉ := by
    rw [hceil]
    split_ifs with h1
    · rw [h1]
      simp
    · exact (max_eq_right (by omega)).symm
  simp [listMissPath, hmax]

/-- C1: on a `List` cache hit, `total` is the cached slice's length,
`totalPages` is the ceiling of that length over the page size, and the
record store's `getAll` is never called. -/
theorem c1_list_cache_hit_counts_from_cached_slice :
    ∀ (fr : Option TaskFilter) (ts : List Task) (ra : Except RepoErr (List Task × Int))
      (cs : Except Unit Unit),
      ((fr.getD defaultFilter).status.all fun s => IsValidStatus s) = true →
      (ListTasks fr true (.ok (some ts)) ra cs).1 =
        .ok { tasks := ts, total := (ts.length : Int),
              page := (normalizeFilter (fr.getD defaultFilter)).page,
              pageSize := (normalizeFilter (fr.getD defaultFilter)).pageSize,
              totalPages := ⌈((ts.length : Int) : ℚ) /
                ((normalizeFilter (fr.getD defaultFilter)).pageSize : ℚ)⌉ } ∧
      ((ListTasks fr true (.ok (some ts)) ra cs).2.all fun e => !e.isRepoGetAll) = true := by
  intro fr ts ra cs h
  have hps : 1 ≤ (normalizeFilter (fr.getD defaultFilter)).pageSize :=
    normalizeFilter_pageSize_pos _
  have hceil := tdiv_add_sub_one_eq_ceil (ts.length : Int)
    (normalizeFilter (fr.getD defaultFilter)).pageSize (by positivity) (by omega)
  cases hst : (fr.getD defaultFilter).status with
  | none =>
    constructor
    · simp [ListTasks, normalizeFilter_status, hst, hceil]
    · simp [ListTasks, normalizeFilter_status, hst, Effect.isRepoGetAll]
  | some s =>
    have hv : IsValidStatus s = true := by simpa [hst] using h
    constructor
    · simp [ListTasks, normalizeFilter_status, hst, hv, hceil]
    · simp [ListTasks, normalizeFilter_status, hst, hv, Effect.isRepoGetAll]

/-- C1 witness: a concrete cache hit of a two-element page with page size 10
reports `total = 2`, `totalPages = 1`, and an effect trace without `getAll`. -/
theorem c1_list_cache_hit_counts_from_cached_slice_witness :
    ((some { status := none, assignee := none, page := 1,
             pageSize := 10 } : Option TaskFilter).getD
        defaultFilter |>.status.all fun s => IsValidStatus s) = true ∧
    (ListTasks (some { status := none, assignee := none, page := 1, pageSize := 10 })
        true
        (.ok (some [{ id := "a", title := "t", description := "", status := "pending",
                      assignee := "", createdAt := 0, updatedAt := 0 },
                    { id := "b", title := "u", description := "", status := "completed",
                      assignee := "", createdAt := 1, updatedAt := 1 }]))
        (.ok ([], 0)) (.ok ())).1 =
      .ok { tasks := [{ id := "a", title := "t", description := "", status := "pending",
                        assignee := "", createdAt := 0, updatedAt := 0 },
                      { id := "b", title := "u", description := "", status := "completed",
                        assignee := "", createdAt := 1, updatedAt := 1 }],
            total := 2, page := 1, pageSize := 10,
            totalPages := ⌈((2 : Int) : ℚ) / ((10 : Int) : ℚ)⌉ } := by
  refine ⟨by decide, ?_⟩
  have := (c1_list_cache_hit_counts_from_cached_slice
    (some { status := none, assignee := none, page := 1, pageSize := 10 })
    [{ id := "a", title := "t", description := "", status := "pending",
       assignee := "", createdAt := 0, updatedAt := 0 },
     { id := "b", title := "u", description := "", status := "completed",
       assignee := "", createdAt := 1, updatedAt := 1 }]
    (.ok ([], 0)) (.ok ()) (by decide)).1
  simpa using this

/-- C6: on a `List` cache miss that succeeds against the record store,
`totalPages` is the ceiling of the store's total over the page size, floored
to a minimum of 1 (so zero matching records still give one page). -/
theorem c6_list_miss_totalpages_ceil_floored :
    ∀ (fr : Option TaskFilter) (ts : List Task) (total : Int) (cs : Except Unit Unit),
      ((fr.getD defaultFilter).status.all fun s => IsValidStatus s) = true →
      0 ≤ total →
      (ListTasks fr true (.ok none) (.ok (ts, total)) cs).1 =
        .ok { tasks := ts, total := total,
              page := (normalizeFilter (fr.getD defaultFilter)).page,
              pageSize := (normalizeFilter (fr.getD defaultFilter)).pageSize,
              totalPages := max 1 ⌈(total : ℚ) /
                ((normalizeFilter (fr.getD defaultFilter)).pageSize : ℚ)⌉ } := by
  intro fr ts total cs h htot
  have hps : 1 ≤ (normalizeFilter (fr.getD defaultFilter)).pageSize :=
    normalizeFilter_pageSize_pos _
  cases hst : (fr.getD defaultFilter).status with
  | none =>
    have := listMissPath_ok (normalizeFilter (fr.getD defaultFilter)) true
      (GenerateCacheKey (some (normalizeFilter (fr.getD defaultFilter)))) ts total
      [Effect.cacheGetList (GenerateCacheKey (some (normalizeFilter (fr.getD defaultFilter))))]
      htot hps
    simpa [ListTasks, normalizeFilter_status, hst] using this
  | some s =>
    have hv : IsValidStatus s = true := by simpa [hst] using h
    have := listMissPath_ok (normalizeFilter (fr.getD defaultFilter)) true
      (GenerateCacheKey (some (normalizeFilter (fr.getD defaultFilter)))) ts total
      [Effect.cacheGetList (GenerateCacheKey (some (normalizeFilter (fr.getD defaultFilter))))]
      htot hps
    simpa [ListTasks, normalizeFilter_status, hst, hv] using this

/-- A concrete filter (page 1, page size 10, no predicates) used by
witnesses. -/
def page1Size10 : TaskFilter :=
  { status := none, assignee := none, page := 1, pageSize := 10 }

/-- C6 witness: with 15 matching records served at page 1 and page size 10,
the response reports `total = 15` and `totalPages = 2`. -/
theorem c6_list_miss_totalpages_ceil_floored_witness :
    (((some page1Size10 : Option TaskFilter).getD
        defaultFilter).status.all fun s => IsValidStatus s) = true ∧
    (0 : Int) ≤ 15 ∧
    max 1 ⌈((15 : Int) : ℚ) /
      ((normalizeFilter ((some page1Size10 : Option TaskFilter).getD
        defaultFilter)).pageSize : ℚ)⌉ = 2 ∧
    (ListTasks (some page1Size10) true (.ok none) (.ok ([], 15)) (.ok ())).1 =
      .ok { tasks := [], total := 15,
            page := (normalizeFilter ((some page1Size10 : Option TaskFilter).getD
              defaultFilter)).page,
            pageSize := (normalizeFilter ((some page1Size10 : Option TaskFilter).getD
              defaultFilter)).pageSize,
            totalPages := max 1 ⌈((15 : Int) : ℚ) /
              ((normalizeFilter ((some page1Size10 : Option TaskFilter).getD
                defaultFilter)).pageSize : ℚ)⌉ } := by
  refine ⟨by decide, by decide, ?_, ?_⟩
  · norm_num [normalizeFilter, page1Size10, defaultFilter]
    rw [Int.ceil_eq_iff]
    norm_num
  · exact c6_list_miss_totalpages_ceil_floored (some page1Size10)
      [] 15 (.ok ()) (by decide) (by decide)

/-! ### Decimal rendering (`Nat.repr`, `toString` on `Int`) is injective -/

/-- The base-10 digit characters of `n`, most significant first: a clean
recursion equal to what `Nat.toDigits 10` computes. -/
def natDigits (n : Nat) : List Char :=
  if _h : n < 10 then [Nat.digitChar n]
  else natDigits (n / 10) ++ [Nat.digitChar (n % 10)]
decreasing_by exact Nat.div_lt_self (by omega) (by omega)

theorem toDigitsCore_eq_natDigits (fuel n : Nat) (ds : List Char) (h : n < fuel) :
    Nat.toDigitsCore 10 fuel n ds = natDigits n ++ ds := by
  induction fuel generalizing n ds with
  | zero => omega
  | succ fuel ih =>
    simp only [Nat.toDigitsCore]
    by_cases h10 : n / 10 = 0
    · rw [if_pos h10]
      have hn : n < 10 := by omega
      rw [natDigits, dif_pos hn]
      have hmod : n % 10 = n := by omega
      rw [hmod]
      rfl
    · rw [if_neg h10]
      have hn : ¬ n < 10 := by omega
      rw [ih (n / 10) _ (by omega)]
      conv_rhs => rw [natDigits, dif_neg hn]
      simp

theorem natRepr_data (n : Nat) : (Nat.repr n).data = natDigits n := by
  show Nat.toDigitsCore 10 (n + 1) n [] = natDigits n
  rw [toDigitsCore_eq_natDigits (n + 1) n [] (Nat.lt_succ_self n)]
  simp

/-- The numeric value of a decimal digit character. -/
def digitVal (c : Char) : Nat := c.toNat - 48

theorem digitVal_digitChar (d : Nat) (h : d < 10) :
    digitVal (Nat.digitChar d) = d := by
  interval_cases d <;> decide

/-- Decode a most-significant-first decimal digit string. -/
def decodeDigits (l : List Char) : Nat :=
  l.foldl (fun a c => 10 * a + digitVal c) 0

theorem decodeDigits_append (l : List Char) (c : Char) :
    decodeDigits (l ++ [c]) = 10 * decodeDigits l + digitVal c := by
  simp [decodeDigits, List.foldl_append]

theorem decodeDigits_natDigits (n : Nat) : decodeDigits (natDigits n) = n := by
  induction n using Nat.strong_induction_on with
  | _ n ih =>
    by_cases h : n < 10
    · rw [natDigits, dif_pos h]
      have h1 : decodeDigits [Nat.digitChar n] = digitVal (Nat.digitChar n) := by
        simp [decodeDigits]
      rw [h1, digitVal_digitChar n h]
    · rw [natDigits, dif_neg h]
      rw [decodeDigits_append, ih (n / 10) (by omega), digitVal_digitChar _ (by omega)]
      omega

theorem natRepr_injective (m n : Nat) (h : Nat.repr m = Nat.repr n) : m = n := by
  have hd : natDigits m = natDigits n := by
    rw [← natRepr_data, ← natRepr_data, h]
  calc m = decodeDigits (natDigits m) := (decodeDigits_natDigits m).symm
    _ = decodeDigits (natDigits n) := by rw [hd]
    _ = n := decodeDigits_natDigits n

theorem natDigits_only_digits (n : Nat) :
    ∀ c ∈ natDigits n, 48 ≤ c.toNat ∧ c.toNat ≤ 57 := by
  induction n using Nat.strong_induction_on with
  | _ n ih =>
    by_cases h : n < 10
    · rw [natDigits, dif_pos h]
      intro c hc
      simp at hc
      subst hc
      interval_cases n <;> decide
    · rw [natDigits, dif_neg h]
      intro c hc
      rcases List.mem_append.mp hc with hc | hc
      · exact ih (n / 10) (by omega) c hc
      · simp at hc
        subst hc
        have h10 : n % 10 < 10 := by omega
        revert h10
        generalize n % 10 = d
        intro h10
        interval_cases d <;> decide

theorem intToString_ofNat (m : Nat) : toString (Int.ofNat m) = Nat.repr m := rfl

theorem intToString_negSucc (m : Nat) :
    toString (Int.negSucc m) = "-" ++ Nat.repr (m + 1) := rfl

theorem intToString_injective (m n : Int) (h : toString m = toString n) : m = n := by
  have hdash : ∀ k : Nat, ('-') ∉ natDigits k := by
    intro k hk
    have := natDigits_only_digits k ('-') hk
    have h45 : Char.toNat ('-') = 45 := rfl
    omega
  cases m with
  | ofNat m0 =>
    cases n with
    | ofNat n0 =>
      rw [intToString_ofNat, intToString_ofNat] at h
      exact congrArg Int.ofNat (natRepr_injective _ _ h)
    | negSucc n0 =>
      exfalso
      rw [intToString_ofNat, intToString_negSucc] at h
      have hd := congrArg String.data h
      rw [String.data_append, natRepr_data] at hd
      exact hdash m0 (by rw [hd]; exact List.mem_cons_self _ _)
  | negSucc m0 =>
    cases n with
    | ofNat n0 =>
      exfalso
      rw [intToString_negSucc, intToString_ofNat] at h
      have hd := congrArg String.data h.symm
      rw [String.data_append, natRepr_data] at hd
      exact hdash n0 (by rw [hd]; exact List.mem_cons_self _ _)
    | negSucc n0 =>
      rw [intToString_negSucc, intToString_negSucc] at h
      have hd := congrArg String.data h
      rw [String.data_append, String.data_append] at hd
      have hcancel := List.append_cancel_left hd
      have hmn := natRepr_injective _ _ (String.ext hcancel)
      exact congrArg Int.negSucc (by omega)

/-- Character-level decomposition of a non-nil collection cache key into its
fixed-order parts. -/
theorem generateCacheKey_some_data (f : TaskFilter) :
    (GenerateCacheKey (some f)).data =
      "tasks:list".data ++
      ((match f.status with
        | some s => ":status:".data ++ s.data
        | none => ([] : List Char)) ++
      ((match f.assignee with
        | some a => ":assignee:".data ++ a.data
        | none => ([] : List Char)) ++
      (":page:".data ++ ((toString f.page).data ++ (":size:".data ++
        (toString f.pageSize).data))))) := by
  obtain ⟨st, asg, p, ps⟩ := f
  cases st <;> cases asg <;>
    simp [GenerateCacheKey, taskListKey, List.append_assoc]

/-- C7: key derivation is deterministic (field-wise-equal filters give the
same key), injective on changes to a single field (status, assignee, page or
page size), and maps the nil filter to the distinguished unfiltered key. -/
theorem c7_cache_key_determinism_and_injectivity :
    (∀ f g : TaskFilter,
      f.status = g.status → f.assignee = g.assignee → f.page = g.page →
      f.pageSize = g.pageSize →
      GenerateCacheKey (some f) = GenerateCacheKey (some g)) ∧
    (∀ f g : TaskFilter,
      f.assignee = g.assignee → f.page = g.page → f.pageSize = g.pageSize →
      f.status ≠ g.status →
      GenerateCacheKey (some f) ≠ GenerateCacheKey (some g)) ∧
    (∀ f g : TaskFilter,
      f.status = g.status → f.page = g.page → f.pageSize = g.pageSize →
      f.assignee ≠ g.assignee →
      GenerateCacheKey (some f) ≠ GenerateCacheKey (some g)) ∧
    (∀ f g : TaskFilter,
      f.status = g.status → f.assignee = g.assignee → f.pageSize = g.pageSize →
      f.page ≠ g.page →
      GenerateCacheKey (some f) ≠ GenerateCacheKey (some g)) ∧
    (∀ f g : TaskFilter,
      f.status = g.status → f.assignee = g.assignee → f.page = g.page →
      f.pageSize ≠ g.pageSize →
      GenerateCacheKey (some f) ≠ GenerateCacheKey (some g)) ∧
    GenerateCacheKey none = "tasks:list:all" := by
  refine ⟨?_, ?_, ?_, ?_, ?_, by decide⟩
  · intro f g h1 h2 h3 h4
    obtain ⟨st, asg, p, ps⟩ := f
    obtain ⟨st2, asg2, p2, ps2⟩ := g
    simp only at h1 h2 h3 h4
    subst h1; subst h2; subst h3; subst h4
    rfl
  · intro f g h2 h3 h4 hne hkey
    obtain ⟨st, asg, p, ps⟩ := f
    obtain ⟨st2, asg2, p2, ps2⟩ := g
    simp only at h2 h3 h4 hne
    subst h2; subst h3; subst h4
    have hd := congrArg String.data hkey
    rw [generateCacheKey_some_data, generateCacheKey_some_data] at hd
    simp only at hd
    cases st with
    | none =>
      cases st2 with
      | none => exact hne rfl
      | some s2 =>
        have hlen := congrArg List.length hd
        simp [List.length_append] at hlen
        omega
    | some s1 =>
      cases st2 with
      | none =>
        have hlen := congrArg List.length hd
        simp [List.length_append] at hlen
        omega
      | some s2 =>
        have hs : s1 ≠ s2 := fun e => hne (by rw [e])
        simp only [List.append_assoc, List.append_right_inj] at hd
        exact hs (String.ext (List.append_cancel_right hd))
  · intro f g h1 h3 h4 hne hkey
    obtain ⟨st, asg, p, ps⟩ := f
    obtain ⟨st2, asg2, p2, ps2⟩ := g
    simp only at h1 h3 h4 hne
    subst h1; subst h3; subst h4
    have hd := congrArg String.data hkey
    rw [generateCacheKey_some_data, generateCacheKey_some_data] at hd
    simp only at hd
    cases asg with
    | none =>
      cases asg2 with
      | none => exact hne rfl
      | some a2 =>
        have hlen := congrArg List.length hd
        simp [List.length_append] at hlen
        omega
    | some a1 =>
      cases asg2 with
      | none =>
        have hlen := congrArg List.length hd
        simp [List.length_append] at hlen
        omega
      | some a2 =>
        have ha : a1 ≠ a2 := fun e => hne (by rw [e])
        cases st <;>
          simp only [List.append_assoc, List.nil_append, List.append_right_inj] at hd <;>
          exact ha (String.ext (List.append_cancel_right hd))
  · intro f g h1 h2 h4 hne hkey
    obtain ⟨st, asg, p, ps⟩ := f
    obtain ⟨st2, asg2, p2, ps2⟩ := g
    simp only at h1 h2 h4 hne
    subst h1; subst h2; subst h4
    have hd := congrArg String.data hkey
    rw [generateCacheKey_some_data, generateCacheKey_some_data] at hd
    simp only at hd
    cases st <;> cases asg <;>
      simp only [List.append_assoc, List.nil_append, List.append_right_inj] at hd <;>
      exact hne (intToString_injective _ _ (String.ext (List.append_cancel_right hd)))
  · intro f g h1 h2 h3 hne hkey
    obtain ⟨st, asg, p, ps⟩ := f
    obtain ⟨st2, asg2, p2, ps2⟩ := g
    simp only at h1 h2 h3 hne
    subst h1; subst h2; subst h3
    have hd := congrArg String.data hkey
    rw [generateCacheKey_some_data, generateCacheKey_some_data] at hd
    simp only at hd
    cases st <;> cases asg <;>
      simp only [List.append_assoc, List.nil_append, List.append_right_inj] at hd <;>
      exact hne (intToString_injective _ _ (String.ext hd))

/-- C7 witness: concrete filters differing only in the page number derive
different keys, and equal filters derive equal keys. -/
theorem c7_cache_key_determinism_and_injectivity_witness :
    (GenerateCacheKey (some { status := none, assignee := none, page := 1, pageSize := 10 }) =
      GenerateCacheKey (some { status := none, assignee := none, page := 1, pageSize := 10 })) ∧
    ((1 : Int) ≠ 2 ∧
      GenerateCacheKey (some { status := none, assignee := none, page := 1, pageSize := 10 }) ≠
        GenerateCacheKey (some { status := none, assignee := none, page := 2, pageSize := 10 })) :=
  ⟨c7_cache_key_determinism_and_injectivity.1 _ _ rfl rfl rfl rfl,
   ⟨by decide,
    c7_cache_key_determinism_and_injectivity.2.2.2.1
      { status := none, assignee := none, page := 1, pageSize := 10 }
      { status := none, assignee := none, page := 2, pageSize := 10 }
      rfl rfl rfl (by decide)⟩⟩

end TaskManager
